import Mathlib

/-!
Verification of the asynchronous analysis-job orchestrator of the
big-five-tester repository.  Rust sources are embedded shallowly:
strings are `String` (character lists where convenient), machine
integers are `Nat`, fallible code returns `Except`, and the mutable
job registry becomes explicit state passing over an association list.
-/

namespace BigFive

/-! ## String helpers (ASCII model of the Rust `str` operations used) -/

/-- `leadsWith needle hay` is true iff `hay` starts with `needle`.
(ASCII model of `str::starts_with`.) -/
def leadsWith : List Char → List Char → Bool
  | [], _ => true
  | _ :: _, [] => false
  | a :: as, b :: bs => a == b && leadsWith as bs

/-- Substring occurrence: `hasSubstr needle hay` is true iff `needle`
occurs contiguously in `hay`.  (ASCII model of `str::contains`.) -/
def hasSubstr (needle : List Char) : List Char → Bool
  | [] => needle.isEmpty
  | c :: t => leadsWith needle (c :: t) || hasSubstr needle t

/-- `str::trim`: drop leading and trailing whitespace. -/
def rustTrim (s : List Char) : List Char :=
  (((s.dropWhile Char.isWhitespace).reverse).dropWhile Char.isWhitespace).reverse

/-- `str::to_uppercase`, restricted to the ASCII uppercasing relevant here. -/
def rustUpper (s : List Char) : List Char := s.map Char.toUpper

/-! ## Configuration data model and validation (`src/crates/bigfive-app/src/config/mod.rs`) -/

/-- `ConfigError` from `config/mod.rs` (only the `Validation` variant is
reachable from `validate`; `ReadFile` and `Parse` belong to file loading,
which is out of scope). -/
inductive ConfigError where
  | validation (msg : String)
deriving DecidableEq, Repr

/-- `Provider` from `config/mod.rs`. -/
inductive Provider where
  | anthropic
  | openAiCompatible
deriving DecidableEq, Repr

/-- `ApiConfig` from `config/mod.rs`. -/
structure ApiConfig where
  provider : Provider
  api_key_env : String
  api_url : Option String
deriving DecidableEq, Repr

/-- `ApiConfig::validate`.  The Rust message text contains quoted
`openai`; the quotes are dropped here, which no claim depends on. -/
def ApiConfig.validateCfg (a : ApiConfig) (sect : String) : Except ConfigError Unit :=
  if a.provider == Provider.openAiCompatible && a.api_url.isNone then
    .error (.validation ("[" ++ sect ++ "] api_url is required for openai provider"))
  else
    .ok ()

/-- `EffortLevel` from `config/mod.rs`. -/
inductive EffortLevel where
  | max
  | high
  | medium
  | low
deriving DecidableEq, Repr

/-- `ThinkingConfig` from `config/mod.rs`. -/
inductive ThinkingConfig where
  | adaptive (effort : EffortLevel)
  | enabled (budget_tokens : Nat)
deriving DecidableEq, Repr

/-- `SourceLanguage` from `config/mod.rs`. -/
inductive SourceLanguage where
  | en
  | ru
  | zh
deriving DecidableEq, Repr

/-- `SourceLanguage::code`. -/
def SourceLanguage.code : SourceLanguage → String
  | .en => "en"
  | .ru => "ru"
  | .zh => "zh"

/-- `SafeguardConfig` from `config/mod.rs`. -/
structure SafeguardConfig where
  enabled : Bool
  model : String
  max_tokens : Nat
  api : ApiConfig
deriving DecidableEq, Repr

/-- `TranslationConfig` from `config/mod.rs`. -/
structure TranslationConfig where
  model : String
  max_tokens : Nat
  api : ApiConfig
deriving DecidableEq, Repr

/-- `ModelPreset` from `config/mod.rs`. -/
structure ModelPreset where
  id : String
  display_name : String
  model : String
  source_lang : SourceLanguage
  max_tokens : Nat
  default : Bool
  api : ApiConfig
  thinking : Option ThinkingConfig
  translation : Option TranslationConfig
deriving DecidableEq, Repr

/-- `ModelPreset::validate`. -/
def ModelPreset.validateCfg (p : ModelPreset) (sect : String) : Except ConfigError Unit :=
  match p.api.validateCfg (sect ++ ".api") with
  | .error e => .error e
  | .ok _ =>
    match p.translation with
    | some t => t.api.validateCfg (sect ++ ".translation.api")
    | none => .ok ()

/-- `AiConfig` from `config/mod.rs`. -/
structure AiConfig where
  safeguard : Option SafeguardConfig
  models : List ModelPreset
deriving DecidableEq, Repr

/-- The safeguard part of `AiConfig::validate`: validate the safeguard
API if a safeguard is present and enabled. -/
def AiConfig.safeguardCheck (c : AiConfig) : Except ConfigError Unit :=
  match c.safeguard with
  | some s => if s.enabled then s.api.validateCfg "safeguard.api" else .ok ()
  | none => .ok ()

/-- The per-preset loop of `AiConfig::validate`, carrying the index used
in the `models[i]` section label. -/
def validateModels : Nat → List ModelPreset → Except ConfigError Unit
  | _, [] => .ok ()
  | i, p :: rest =>
    match p.validateCfg ("models[" ++ toString i ++ "]") with
    | .error e => .error e
    | .ok _ => validateModels (i + 1) rest

/-- `AiConfig::validate`. -/
def AiConfig.validate (c : AiConfig) : Except ConfigError Unit :=
  if c.models.isEmpty then
    .error (.validation "At least one model preset is required")
  else
    match c.safeguardCheck with
    | .error e => .error e
    | .ok _ =>
      match validateModels 0 c.models with
      | .error e => .error e
      | .ok _ =>
        if 1 < (c.models.filter (fun m => m.default)).length then
          .error (.validation "Only one model can be marked as default")
        else
          .ok ()

/-- `AiConfig::default_model`.  The Rust function returns a reference and
`unwrap`s on an empty preset list; the partiality is made explicit with
`Option`. -/
def AiConfig.default_model (c : AiConfig) : Option ModelPreset :=
  match c.models.find? (fun m => m.default) with
  | some m => some m
  | none => c.models.head?

/-- `AiConfig::get_model`. -/
def AiConfig.get_model (c : AiConfig) (id : String) : Option ModelPreset :=
  c.models.find? (fun m => m.id == id)

/-! ## AI error type (`src/crates/bigfive-app/src/ai/error.rs`) -/

/-- `AnalysisError` from `ai/error.rs`. -/
inductive AnalysisError where
  | config (e : ConfigError)
  | request (msg : String)
  | apiError (status : Nat) (body : String)
  | parseResponse (msg : String)
  | emptyResponse
  | unsafeInput
  | invalidModel (id : String)
deriving DecidableEq, Repr

/-- The `Display` rendering of `AnalysisError` produced by `thiserror`,
used when the runner stringifies a failure into the job's `Error` state. -/
def AnalysisError.message : AnalysisError → String
  | .config (.validation m) => "Configuration error: Invalid configuration: " ++ m
  | .request m => "API request failed: " ++ m
  | .apiError status body => "API error (" ++ toString status ++ "): " ++ body
  | .parseResponse m => "Failed to parse API response: " ++ m
  | .emptyResponse => "Empty response from API"
  | .unsafeInput =>
      "Your input was flagged as potentially unsafe. Please provide only personal context information."
  | .invalidModel id => "Invalid model: " ++ id

/-! ## Job store (`src/crates/bigfive-app/src/jobs.rs`)

The global `HashMap<JobId, JobEntry>` behind the mutex becomes an
association list threaded explicitly; `Instant` timestamps become `Nat`
seconds, with `elapsed` at time `now` being `now - created_at`. -/

/-- `JobStatus` from `jobs.rs`. -/
inductive JobStatus where
  | pending
  | processing
  | complete (result : String)
  | error (msg : String)
deriving DecidableEq, Repr

/-- `JobEntry` from `jobs.rs`. -/
structure JobEntry where
  status : JobStatus
  created_at : Nat
deriving DecidableEq, Repr

/-- The contents of the `JobStore` map. -/
abbrev Store := List (String × JobEntry)

/-- `JobStore::cleanup_old_jobs`: retain entries younger than one hour
(3600 seconds) at time `now`. -/
def cleanup_old_jobs (now : Nat) (jobs : Store) : Store :=
  jobs.filter (fun p => decide (now - p.2.created_at < 3600))

/-- `create_job`: sweep, then insert a fresh `Pending` entry stamped `now`
(`HashMap::insert` replaces any entry already stored under the id). -/
def create_job (job_id : String) (now : Nat) (store : Store) : Store :=
  (job_id, ⟨JobStatus.pending, now⟩) ::
    (cleanup_old_jobs now store).filter (fun p => !(p.1 == job_id))

/-- `update_job_status`: overwrite the status of an existing entry;
no-op when the id is absent. -/
def update_job_status (job_id : String) (status : JobStatus) (store : Store) : Store :=
  store.map (fun p => if p.1 == job_id then (p.1, { p.2 with status := status }) else p)

/-- `get_job_status`: non-consuming lookup. -/
def get_job_status (job_id : String) (store : Store) : Option JobStatus :=
  (store.find? (fun p => p.1 == job_id)).map (fun p => p.2.status)

/-- `remove_job`: unconditional removal. -/
def remove_job (job_id : String) (store : Store) : Store :=
  store.filter (fun p => !(p.1 == job_id))

/-! ## Status polling endpoint (`src/crates/bigfive-app/src/components/results.rs`) -/

/-- `AnalysisStatus` from `results.rs`: the wire status seen by the client. -/
inductive AnalysisStatus where
  | pending
  | complete (result : String)
  | error (msg : String)
deriving DecidableEq, Repr

/-- `get_analysis_status` from `results.rs`: read the job's status, map
`Pending`/`Processing` to the single wire `Pending`, delete the record on
a terminal status, and fold an unknown id into `Error "Job not found"`.
Returns the response together with the store left behind. -/
def get_analysis_status (job_id : String) (store : Store) : AnalysisStatus × Store :=
  match get_job_status job_id store with
  | some .pending | some .processing => (.pending, store)
  | some (.complete result) => (.complete result, remove_job job_id store)
  | some (.error err) => (.error err, remove_job job_id store)
  | none => (.error "Job not found", store)

/-! ## Analysis pipeline (`src/crates/bigfive-app/src/ai/pipeline.rs`) -/

deriving instance DecidableEq for Except

/-- The safeguard reply classification from `check_safeguard`
(`pipeline.rs`): trim and uppercase the reply; unsafe iff it contains
`"UNSAFE"` or does not contain `"SAFE"`. -/
def unsafeReply (r : List Char) : Bool :=
  let u := rustUpper (rustTrim r)
  hasSubstr "UNSAFE".data u || !(hasSubstr "SAFE".data u)

/-- One Provider Client invocation recorded by the pipeline model, tagged
with the stage that issued it and the model name it targeted. -/
inductive Call where
  | safeguard (model : String)
  | generation (model : String)
  | translation (model : String)
deriving DecidableEq, Repr

/-- The mocked Provider Client: a response for each of the at most three
network calls a single pipeline run can make. -/
structure Oracle where
  safeguardResp : Except AnalysisError String
  generationResp : Except AnalysisError String
  translationResp : Except AnalysisError String
deriving DecidableEq, Repr

/-- Generation and translation stages of the pipeline, entered once the
preset is resolved and the safeguard gate (if any) has passed:
call the Provider Client with the preset's parameters; then, unless the
preset's native language equals the interface language or no translation
block is configured, call it again with the translation sub-config. -/
def generationStage (preset : ModelPreset) (interface_language : String) (o : Oracle)
    (callsSoFar : List Call) : Except AnalysisError String × List Call :=
  match o.generationResp with
  | .error e => (.error e, callsSoFar ++ [Call.generation preset.model])
  | .ok analysis =>
    if preset.source_lang.code == interface_language then
      (.ok analysis, callsSoFar ++ [Call.generation preset.model])
    else
      match preset.translation with
      | none => (.ok analysis, callsSoFar ++ [Call.generation preset.model])
      | some t =>
        match o.translationResp with
        | .error e =>
            (.error e, callsSoFar ++ [Call.generation preset.model, Call.translation t.model])
        | .ok translated =>
            (.ok translated, callsSoFar ++ [Call.generation preset.model, Call.translation t.model])

/-- Modelled from the spec: the preset-based revision of
`generate_analysis` — the one `start_analysis` in `results.rs` invokes
with a `model_id` argument — is absent from `src/ai/pipeline.rs` (the file
holds an older three-argument revision with no preset registry), so the
pipeline is reconstructed here from spec section 4.3 and its testable
properties.  The chosen preset is resolved first, failing with
`InvalidModel` before any network call when the id is unknown (the spec
guarantees that no network call is made for any stage in that case); the
safeguard gate — whose classification is translated from
`check_safeguard`, which is present in the source — runs when a safeguard
is configured, enabled, and the caller supplied non-empty context, and on
an unsafe verdict aborts with `UnsafeInput` before generation.  The pair
returned is the pipeline outcome and the ordered list of Provider Client
invocations. -/
def generate_analysis (c : AiConfig) (model_id : String) (user_context : Option String)
    (interface_language : String) (o : Oracle) : Except AnalysisError String × List Call :=
  match c.get_model model_id with
  | none => (.error (.invalidModel model_id), [])
  | some preset =>
    match c.safeguard, user_context with
    | some s, some ctx =>
      if s.enabled && !(rustTrim ctx.data).isEmpty then
        match o.safeguardResp with
        | .error e => (.error e, [Call.safeguard s.model])
        | .ok r =>
          if unsafeReply r.data then
            (.error .unsafeInput, [Call.safeguard s.model])
          else
            generationStage preset interface_language o [Call.safeguard s.model]
      else
        generationStage preset interface_language o []
    | _, _ => generationStage preset interface_language o []

/-! ## Detached runner and polling client (`results.rs`, lines 136–199 and 438–474) -/

/-- An observable effect of the spawned background task in
`start_analysis`. -/
inductive TaskEffect where
  | updateStatus (s : JobStatus)
  | logLink (rid : String)
  | persist (rid text : String)
deriving DecidableEq, Repr

/-- The effect sequence of the task `start_analysis` spawns (lines
165–196 of `results.rs`), given the pipeline's outcome and the optional
result id the caller supplied: set `Processing`; on success log the
results link when a result id is present and set `Complete`; on failure
set `Error` with the stringified failure. -/
def taskEffects (outcome : Except AnalysisError String) (result_id : Option String) :
    List TaskEffect :=
  TaskEffect.updateStatus .processing ::
    match outcome with
    | .ok description =>
        (match result_id with
         | some rid => [TaskEffect.logLink rid]
         | none => []) ++ [TaskEffect.updateStatus (.complete description)]
    | .error e => [TaskEffect.updateStatus (.error e.message)]

/-- Is a task effect anything other than a persistence call? -/
def TaskEffect.isNotPersist : TaskEffect → Bool
  | .persist _ _ => false
  | _ => true

/-- What the polling client does on receiving `Complete(description)`
(lines 439–451 of `results.rs`): display the description, stop the
loading state, and — when a result id is known — call
`update_saved_analysis(rid, description)`, discarding its outcome
(`let _ = ...`). -/
structure ClientOutcome where
  shown : Option String
  loading : Bool
  persistCalls : List (String × String)
deriving DecidableEq, Repr

/-- The client's handling of a `Complete` poll response; `persistResult`
is the outcome of the `update_saved_analysis` call, which the code
ignores. -/
def clientOnComplete (description : String) (result_id : Option String)
    (persistResult : Except String Unit) : ClientOutcome :=
  { shown := some description
    loading := false
    persistCalls :=
      match result_id with
      | some rid => [(rid, description)]
      | none => []
    }

/-! ## Provider response extraction (`src/crates/bigfive-app/src/ai/provider/anthropic.rs`) -/

/-- `ContentBlock` from `provider/anthropic.rs`: a typed response
segment; `text` is present on `text` blocks. -/
structure ContentBlock where
  block_type : String
  text : Option String
deriving DecidableEq, Repr

/-- `extract_text` from `provider/anthropic.rs`: keep the `text` blocks,
collect their texts, and join them; fail with `EmptyResponse` when none
remain. -/
def extract_text (content : List ContentBlock) : Except AnalysisError String :=
  let texts := (content.filter (fun b => b.block_type == "text")).filterMap (fun b => b.text)
  if texts.isEmpty then .error .emptyResponse
  else .ok (String.join texts)

/-- The spec's wording of the same extraction, for comparison: walk the
content list in order, keeping exactly the text carried by text segments
and discarding every other (reasoning/thinking) segment. -/
def specTextSegments : List ContentBlock → List String
  | [] => []
  | b :: rest =>
    if b.block_type = "text" then
      match b.text with
      | some t => t :: specTextSegments rest
      | none => specTextSegments rest
    else specTextSegments rest

/-! ## Cooperative trace of the request handler and the spawned task

`start_analysis` runs on an async executor: the handler performs its own
actions in order, and a spawned task's actions can be scheduled only when
the spawning coroutine suspends at an `await` or finishes.  The handler
body of `start_analysis` contains no `await` after the `spawn`, so every
network action of the pipeline task is scheduled after the handler's
return. -/

/-- Atomic actions of the handler and of the spawned pipeline task. -/
inductive Act where
  | dotenv
  | genId
  | createJobAct
  | logAct
  | spawnAct
  | retAct
  | awaitAct
  | setProcessing
  | network (tag : String)
  | setComplete (t : String)
  | setError (e : String)
deriving DecidableEq, Repr

/-- The action sequence of the `start_analysis` handler body itself
(lines 146–198 of `results.rs`): load `.env`, generate the job id, create
the job entry, log, spawn the background task, return the job id.  It
contains no `await` and no network action. -/
def startAnalysisActs : List Act :=
  [Act.dotenv, Act.genId, Act.createJobAct, Act.logAct, Act.spawnAct, Act.retAct]

/-- The action sequence of the spawned task: set `Processing`, make the
pipeline's network calls, then write the terminal status. -/
def runnerActs (calls : List String) (outcome : Except String String) : List Act :=
  Act.setProcessing :: calls.map Act.network ++
    [match outcome with
     | .ok t => Act.setComplete t
     | .error e => Act.setError e]

/-- Cooperative interleavings: `coopB h r tr` holds when `tr` is a
complete schedule of handler actions `h` and spawned-task actions `r` in
which the task may run only while the handler is suspended at an `await`
or has finished. -/
def coopB : List Act → List Act → List Act → Bool
  | [], r, tr => decide (tr = r)
  | _ :: _, _, [] => false
  | a :: h, r, t :: tr =>
    (decide (t = a) && coopB h r tr)
      || (decide (a = Act.awaitAct) &&
          match r with
          | b :: r2 => decide (t = b) && coopB (a :: h) r2 tr
          | [] => false)

/-! ## Operation traces on a single job id (`jobs.rs` plus the runner and poller) -/

/-- An operation performed on one job id's record. -/
inductive JobOp where
  | createOp (now : Nat)
  | updateOp (s : JobStatus)
  | readOp
  | deleteOp
deriving DecidableEq, Repr

/-- Is a job status terminal (`Complete` or `Error`)? -/
def JobStatus.isTerminal : JobStatus → Bool
  | .complete _ => true
  | .error _ => true
  | _ => false

/-- The effect of one operation on the job's stored status (`none` means
the record is absent): create inserts `Pending`, update overwrites an
existing record and is a no-op on an absent one, read changes nothing,
delete removes the record. -/
def applyOp : Option JobStatus → JobOp → Option JobStatus
  | _, .createOp _ => some .pending
  | st, .updateOp s => match st with
    | some _ => some s
    | none => none
  | st, .readOp => st
  | _, .deleteOp => none

/-- The stored status after running a list of operations from an absent
record. -/
def runOps (l : List JobOp) : Option JobStatus :=
  l.foldl applyOp none

/-- The statuses written by the update operations of a trace, in order. -/
def updatesOf : List JobOp → List JobStatus
  | [] => []
  | .updateOp s :: t => s :: updatesOf t
  | _ :: t => updatesOf t

/-- Does a trace contain no create operation? -/
def noCreate (l : List JobOp) : Bool :=
  l.all (fun o => match o with
    | .createOp _ => false
    | _ => true)

/-! ## Concrete fixtures used by witnesses -/

/-- An Anthropic API block (needs no `api_url`). -/
def anthroApi : ApiConfig :=
  { provider := .anthropic, api_key_env := "ANTHROPIC_API_KEY", api_url := none }

/-- A plain preset, not marked default. -/
def mainPreset : ModelPreset :=
  { id := "main", display_name := "Main", model := "model-main", source_lang := .en,
    max_tokens := 8192, default := false, api := anthroApi, thinking := none,
    translation := none }

/-- A second plain preset with a distinct id. -/
def altPreset : ModelPreset :=
  { mainPreset with id := "alt", display_name := "Alt" }

/-- Two presets, neither marked default. -/
def zeroDefaultCfg : AiConfig := { safeguard := none, models := [mainPreset, altPreset] }

/-- First of two presets sharing the id `"dup"`. -/
def dupFirstPreset : ModelPreset :=
  { mainPreset with id := "dup", display_name := "First" }

/-- Second of two presets sharing the id `"dup"`. -/
def dupSecondPreset : ModelPreset :=
  { mainPreset with id := "dup", display_name := "Second" }

/-- A configuration whose two presets share the same id. -/
def dupIdCfg : AiConfig := { safeguard := none, models := [dupFirstPreset, dupSecondPreset] }

/-- An enabled safeguard block. -/
def sgBlock : SafeguardConfig :=
  { enabled := true, model := "model-guard", max_tokens := 1024, api := anthroApi }

/-- A configuration with an enabled safeguard and one preset. -/
def sgCfg : AiConfig := { safeguard := some sgBlock, models := [mainPreset] }

/-- A mocked Provider Client whose every call succeeds. -/
def okOracle : Oracle :=
  { safeguardResp := .ok "SAFE", generationResp := .ok "generated text",
    translationResp := .ok "translated text" }

/-! ## Helper lemmas -/

/-- After `remove_job`, a lookup of the removed id finds nothing. -/
theorem get_job_status_remove (job_id : String) (store : Store) :
    get_job_status job_id (remove_job job_id store) = none := by
  induction store with
  | nil => rfl
  | cons p t ih =>
    by_cases h : p.1 = job_id
    · simp only [remove_job, List.filter, h] at ih ⊢
      simp only [beq_self_eq_true, Bool.not_true] at ih ⊢
      exact ih
    · have hb : (p.1 == job_id) = false := by simp [h]
      simp only [remove_job, get_job_status, List.filter, List.find?, hb,
        Bool.not_false] at ih ⊢
      exact ih

/-! ## Claims -/

/-- C1: for a job whose stored status is `Complete(text)` or
`Error(message)`, one `get_analysis_status` call returns that payload and
deletes the record, so every later call for the same id — exactly like a
call for an id that was never created — answers `Error "Job not found"`. -/
theorem poll_consumes_terminal_job (store : Store) (job_id : String) :
    (∀ t, get_job_status job_id store = some (.complete t) →
      get_analysis_status job_id store = (.complete t, remove_job job_id store) ∧
      get_analysis_status job_id (remove_job job_id store) =
        (.error "Job not found", remove_job job_id store)) ∧
    (∀ m, get_job_status job_id store = some (.error m) →
      get_analysis_status job_id store = (.error m, remove_job job_id store) ∧
      get_analysis_status job_id (remove_job job_id store) =
        (.error "Job not found", remove_job job_id store)) ∧
    (get_job_status job_id store = none →
      get_analysis_status job_id store = (.error "Job not found", store)) := by
  have hrm := get_job_status_remove job_id store
  refine ⟨fun t h => ?_, fun m h => ?_, fun h => ?_⟩ <;>
    simp [get_analysis_status, h, hrm]

/-- Witness for C1 at a concrete store holding one completed and one
failed job. -/
theorem poll_consumes_terminal_job_witness :
    (get_job_status "a" [("a", ⟨JobStatus.complete "done", 0⟩)] =
        some (JobStatus.complete "done") ∧
      get_analysis_status "a" [("a", ⟨JobStatus.complete "done", 0⟩)] =
        (.complete "done", remove_job "a" [("a", ⟨JobStatus.complete "done", 0⟩)]) ∧
      get_analysis_status "a" (remove_job "a" [("a", ⟨JobStatus.complete "done", 0⟩)]) =
        (.error "Job not found",
          remove_job "a" (remove_job "a" [("a", ⟨JobStatus.complete "done", 0⟩)]))) ∧
    (get_job_status "b" [("b", ⟨JobStatus.error "boom", 0⟩)] =
        some (JobStatus.error "boom") ∧
      get_analysis_status "b" [("b", ⟨JobStatus.error "boom", 0⟩)] =
        (.error "boom", remove_job "b" [("b", ⟨JobStatus.error "boom", 0⟩)])) := by
  refine ⟨⟨by decide, ?_⟩, ⟨by decide, ?_⟩⟩
  · have h := (poll_consumes_terminal_job [("a", ⟨JobStatus.complete "done", 0⟩)] "a").1
      "done" (by decide)
    have h2 := h.2
    refine ⟨h.1, ?_⟩
    have : remove_job "a" (remove_job "a" [("a", ⟨JobStatus.complete "done", 0⟩)]) =
        remove_job "a" [("a", ⟨JobStatus.complete "done", 0⟩)] := by decide
    rw [this]
    exact h2
  · exact ((poll_consumes_terminal_job [("b", ⟨JobStatus.error "boom", 0⟩)] "b").2.1
      "boom" (by decide)).1

/-- C6: `create_job` first sweeps every entry aged one hour or more and
then inserts the new id with status `Pending` stamped with the current
time: an entry is in the store after the call iff it is the fresh one or
a surviving young entry under a different id. -/
theorem create_job_sweeps (store : Store) (job_id : String) (now : Nat)
    (j : String) (e : JobEntry) :
    (j, e) ∈ create_job job_id now store ↔
      (j = job_id ∧ e = ⟨JobStatus.pending, now⟩) ∨
      (j ≠ job_id ∧ (j, e) ∈ store ∧ now - e.created_at < 3600) := by
  simp only [create_job, cleanup_old_jobs, List.mem_cons, List.mem_filter,
    Prod.mk.injEq, decide_eq_true_eq, Bool.not_eq_true', beq_eq_false_iff_ne,
    ne_eq]
  tauto

/-- The generation stage always records a Provider Client invocation of
the preset's model, whatever the mocked outcome. -/
theorem generation_called (preset : ModelPreset) (lang : String) (o : Oracle)
    (callsSoFar : List Call) :
    Call.generation preset.model ∈ (generationStage preset lang o callsSoFar).2 := by
  unfold generationStage
  rcases o.generationResp with e | analysis
  · simp
  · by_cases hl : (preset.source_lang.code == lang) = true
    · simp [hl]
    · rcases ht : preset.translation with _ | t <;>
        rcases o.translationResp with e2 | tr <;>
          simp [hl, ht]

/-- C2: when the chosen preset id is not in the registry, the pipeline
terminates at once with `InvalidModel` and no Provider Client invocation
is recorded for any stage.  (The preset-resolving `generate_analysis`
revision is modelled from the spec; see its doc comment.) -/
theorem unknown_model_no_network (c : AiConfig) (model_id : String)
    (user_context : Option String) (lang : String) (o : Oracle)
    (h : c.get_model model_id = none) :
    generate_analysis c model_id user_context lang o =
      (.error (.invalidModel model_id), []) := by
  simp [generate_analysis, h]

/-- Witness for C2: the fixture registry has no preset `"nope"`. -/
theorem unknown_model_no_network_witness :
    sgCfg.get_model "nope" = none ∧
    generate_analysis sgCfg "nope" (some "hi") "en" okOracle =
      (.error (.invalidModel "nope"), []) :=
  ⟨by decide, unknown_model_no_network sgCfg "nope" (some "hi") "en" okOracle (by decide)⟩

/-- C3: with the safeguard configured, enabled, and fed a non-empty
context, a reply `r` is classified unsafe exactly when its trimmed,
uppercased form contains `"UNSAFE"` or lacks `"SAFE"`; then the pipeline
aborts with `UnsafeInput` having made only the safeguard call (generation
is never invoked), and otherwise it proceeds to the generation call. -/
theorem safeguard_gate (c : AiConfig) (model_id lang : String) (preset : ModelPreset)
    (s : SafeguardConfig) (ctx r : String) (o : Oracle)
    (hm : c.get_model model_id = some preset)
    (hs : c.safeguard = some s)
    (hen : s.enabled = true)
    (hctx : (rustTrim ctx.data).isEmpty = false)
    (hr : o.safeguardResp = .ok r) :
    ((hasSubstr "UNSAFE".data (rustUpper (rustTrim r.data)) ||
        !hasSubstr "SAFE".data (rustUpper (rustTrim r.data))) = true →
      generate_analysis c model_id (some ctx) lang o =
        (.error .unsafeInput, [Call.safeguard s.model])) ∧
    ((hasSubstr "UNSAFE".data (rustUpper (rustTrim r.data)) ||
        !hasSubstr "SAFE".data (rustUpper (rustTrim r.data))) = false →
      Call.generation preset.model ∈ (generate_analysis c model_id (some ctx) lang o).2) := by
  constructor
  · intro hu
    simp [generate_analysis, hm, hs, hen, hctx, hr, unsafeReply, hu]
  · intro hu
    have hur : unsafeReply r.data = false := by
      simpa [unsafeReply] using hu
    simp [generate_analysis, hm, hs, hen, hctx, hr, hur]
    exact generation_called preset lang o [Call.safeguard s.model]

/-- Witness for C3: a `"MAYBE"` reply (neither SAFE nor UNSAFE) aborts
the fixture pipeline before generation, and a `"SAFE"` reply lets it
generate. -/
theorem safeguard_gate_witness :
    (generate_analysis sgCfg "main" (some "about me")  "en"
        { okOracle with safeguardResp := .ok "MAYBE" } =
      (.error .unsafeInput, [Call.safeguard "model-guard"])) ∧
    Call.generation "model-main" ∈
      (generate_analysis sgCfg "main" (some "about me") "en" okOracle).2 := by
  constructor
  · exact (safeguard_gate sgCfg "main" "en" mainPreset sgBlock "about me" "MAYBE"
      { okOracle with safeguardResp := .ok "MAYBE" }
      (by decide) (by decide) (by decide) (by decide) rfl).1 (by decide)
  · exact (safeguard_gate sgCfg "main" "en" mainPreset sgBlock "about me" "SAFE"
      okOracle (by decide) (by decide) (by decide) (by decide) rfl).2 (by decide)

/-- C4 counterexample: with a successful pipeline outcome `"T"` and a
supplied result identifier, the detached runner performs no persistence
call at all — it only logs the link and records `Complete` — refuting the
claim that the runner itself invokes the persistence collaborator. -/
theorem runner_persists_counterexample :
    (taskEffects (.ok "T") (some "rid0")).all TaskEffect.isNotPersist = true ∧
    taskEffects (.ok "T") (some "rid0") =
      [.updateStatus .processing, .logLink "rid0", .updateStatus (.complete "T")] := by
  decide

/-- C4 as amended: the runner itself never calls persistence — on success
with a supplied result identifier it logs the link and finishes by
setting `Complete(T)`; persistence is invoked by the polling client after
it observes `Complete(T)`, storing `T` against that identifier, and the
persistence outcome is discarded, so the delivered result stays
`Complete(T)` whether persistence succeeds or fails. -/
theorem runner_logs_client_persists (T rid : String) (pr : Except String Unit) :
    (taskEffects (.ok T) (some rid)).all TaskEffect.isNotPersist = true ∧
    (taskEffects (.ok T) (some rid)).getLast? =
      some (.updateStatus (.complete T)) ∧
    clientOnComplete T (some rid) pr =
      { shown := some T, loading := false, persistCalls := [(rid, T)] } ∧
    clientOnComplete T (some rid) (.error "db down") =
      clientOnComplete T (some rid) (.ok ()) := by
  refine ⟨?_, ?_, rfl, rfl⟩ <;> simp [taskEffects, TaskEffect.isNotPersist]

/-- C8: validation rejects an empty preset list and more than one default
preset; zero defaults is never itself a ground for rejection — a
zero-default configuration passing the remaining checks validates, and
its `default_model` is the first preset in configuration order. -/
theorem config_validation_rules :
    (∀ c : AiConfig, c.models = [] →
      c.validate = .error (.validation "At least one model preset is required")) ∧
    (∀ c : AiConfig, 1 < (c.models.filter (fun m => m.default)).length →
      c.validate ≠ .ok ()) ∧
    (∀ c : AiConfig, c.models ≠ [] → c.safeguardCheck = .ok () →
      validateModels 0 c.models = .ok () → (∀ m ∈ c.models, m.default = false) →
      c.validate = .ok ()) ∧
    (∀ c : AiConfig, (∀ m ∈ c.models, m.default = false) →
      c.default_model = c.models.head?) := by
  refine ⟨?_, ?_, ?_, ?_⟩
  · intro c h
    simp [AiConfig.validate, h]
  · intro c h hok
    by_cases hm : c.models.isEmpty
    · simp [AiConfig.validate, hm] at hok
    · rcases hsc : c.safeguardCheck with e | u
      · simp [AiConfig.validate, hm, hsc] at hok
      · rcases hvm : validateModels 0 c.models with e | u
        · simp [AiConfig.validate, hm, hsc, hvm] at hok
        · simp [AiConfig.validate, hm, hsc, hvm, h] at hok
  · intro c hne hsc hvm hall
    have hfilter : c.models.filter (fun m => m.default) = [] :=
      List.filter_eq_nil_iff.mpr (fun m hm => by simp [hall m hm])
    have hm : c.models.isEmpty = false := by
      rcases hc : c.models with _ | ⟨a, t⟩
      · exact absurd hc hne
      · simp [hc]
    simp [AiConfig.validate, hm, hsc, hvm, hfilter]
  · intro c hall
    have h : c.models.find? (fun m => m.default) = none :=
      List.find?_eq_none.mpr (fun x hx => by simp [hall x hx])
    simp [AiConfig.default_model, h]

/-- Witness for C8: the empty configuration is rejected, a two-default
configuration is rejected, and the zero-default fixture validates with
`default_model` equal to its first preset. -/
theorem config_validation_rules_witness :
    (AiConfig.mk none []).validate =
      .error (.validation "At least one model preset is required") ∧
    ({ safeguard := none,
       models := [{ mainPreset with default := true },
                  { altPreset with default := true }] } : AiConfig).validate ≠ .ok () ∧
    zeroDefaultCfg.validate = .ok () ∧
    zeroDefaultCfg.default_model = some mainPreset := by
  refine ⟨config_validation_rules.1 _ rfl,
    config_validation_rules.2.1 _ (by decide),
    config_validation_rules.2.2.1 _ (by decide) (by decide) (by decide) (by decide),
    ?_⟩
  have h := config_validation_rules.2.2.2 zeroDefaultCfg (by decide)
  exact h.trans (by decide)

/-- `specTextSegments` agrees with the filter/filterMap pipeline used by
`extract_text`. -/
theorem specTextSegments_eq (content : List ContentBlock) :
    specTextSegments content =
      (content.filter (fun b => b.block_type == "text")).filterMap (fun b => b.text) := by
  induction content with
  | nil => rfl
  | cons b rest ih =>
    by_cases h : b.block_type = "text"
    · rcases ht : b.text with _ | t <;>
        simp [specTextSegments, List.filter, List.filterMap, h, ht, ih]
    · have hb : (b.block_type == "text") = false := by simp [h]
      simp [specTextSegments, List.filter, h, hb, ih]

/-- C9: for a successfully parsed response, `extract_text` returns the
concatenation, in order, of exactly the text segments of the content
list, discarding every non-text (reasoning/thinking) segment, and fails
with `EmptyResponse` when no text segment exists. -/
theorem extract_text_concats (content : List ContentBlock) :
    (specTextSegments content = [] →
      extract_text content = .error .emptyResponse) ∧
    (specTextSegments content ≠ [] →
      extract_text content = .ok (String.join (specTextSegments content))) := by
  have he := specTextSegments_eq content
  constructor
  · intro h
    simp [extract_text, ← he, h]
  · intro h
    have hne : (specTextSegments content).isEmpty = false := by
      rcases hc : specTextSegments content with _ | ⟨a, t⟩
      · exact absurd hc h
      · simp [hc]
    simp [extract_text, ← he, hne]

/-- Witness for C9: a thinking block followed by two text blocks yields
their concatenation; a lone thinking block yields `EmptyResponse`. -/
theorem extract_text_concats_witness :
    (specTextSegments
        [⟨"thinking", none⟩, ⟨"text", some "Hel"⟩, ⟨"text", some "lo"⟩] ≠ [] ∧
      extract_text
        [⟨"thinking", none⟩, ⟨"text", some "Hel"⟩, ⟨"text", some "lo"⟩] =
        .ok "Hello") ∧
    (specTextSegments [⟨"thinking", none⟩] = [] ∧
      extract_text [⟨"thinking", none⟩] = .error .emptyResponse) := by
  refine ⟨⟨by decide, ?_⟩, by decide,
    (extract_text_concats [⟨"thinking", none⟩]).1 (by decide)⟩
  exact ((extract_text_concats
    [⟨"thinking", none⟩, ⟨"text", some "Hel"⟩, ⟨"text", some "lo"⟩]).2
      (by decide)).trans (by decide)

/-- `find?` returns the first element of the list satisfying the
predicate: anything left of it fails the predicate. -/
theorem find_first_matching (id : String) (p : ModelPreset) (l₁ l₂ : List ModelPreset)
    (h1 : ∀ q ∈ l₁, q.id ≠ id) (hp : p.id = id) :
    (l₁ ++ p :: l₂).find? (fun m => m.id == id) = some p := by
  induction l₁ with
  | nil => simp [List.find?, hp]
  | cons q t ih =>
    have hq : (q.id == id) = false := by simp [h1 q (by simp)]
    simp only [List.cons_append, List.find?, hq]
    exact ih (fun x hx => h1 x (by simp [hx]))

/-- C10: validation never checks preset-id uniqueness — the duplicate-id
fixture is accepted — and `get_model` returns the first preset in
configuration order whose id matches, so the earlier duplicate shadows
the later one. -/
theorem duplicate_ids_accepted :
    dupIdCfg.validate = .ok () ∧
    (∀ (c : AiConfig) (id : String) (l₁ l₂ : List ModelPreset) (p : ModelPreset),
      c.models = l₁ ++ p :: l₂ → p.id = id → (∀ q ∈ l₁, q.id ≠ id) →
      c.get_model id = some p) ∧
    dupIdCfg.get_model "dup" = some dupFirstPreset ∧
    dupFirstPreset ≠ dupSecondPreset := by
  refine ⟨by decide, ?_, by decide, by decide⟩
  intro c id l₁ l₂ p hc hp h1
  simp only [AiConfig.get_model, hc]
  exact find_first_matching id p l₁ l₂ h1 hp

/-- Witness for C10: the general first-match property applied to the
duplicate-id fixture picks the first of the two presets. -/
theorem duplicate_ids_accepted_witness :
    dupIdCfg.models = [] ++ dupFirstPreset :: [dupSecondPreset] ∧
    dupFirstPreset.id = "dup" ∧
    dupIdCfg.get_model "dup" = some dupFirstPreset :=
  ⟨rfl, rfl,
    duplicate_ids_accepted.2.1 dupIdCfg "dup" [] [dupSecondPreset] dupFirstPreset
      rfl rfl (by simp)⟩

/-- A coroutine whose action list contains no `await` runs to completion
before any action of a task it spawned is scheduled. -/
theorem coop_no_await (h r tr : List Act) (hna : ∀ a ∈ h, a ≠ Act.awaitAct)
    (hc : coopB h r tr = true) : tr = h ++ r := by
  induction tr generalizing h r with
  | nil =>
    cases h with
    | nil =>
      simp only [coopB, decide_eq_true_eq] at hc
      simp [← hc]
    | cons a h2 => simp [coopB] at hc
  | cons t tr2 ih =>
    cases h with
    | nil =>
      simp only [coopB, decide_eq_true_eq] at hc
      simp [← hc]
    | cons a h2 =>
      simp only [coopB, Bool.or_eq_true, Bool.and_eq_true, decide_eq_true_eq] at hc
      rcases hc with ⟨hta, hc⟩ | ⟨ha, _⟩
      · subst hta
        have := ih h2 r (fun x hx => hna x (List.mem_cons_of_mem _ hx)) hc
        simp [this]
      · exact absurd ha (hna a (by simp))

/-- C5: in every cooperative schedule of the `start_analysis` handler and
the pipeline task it spawns, the handler's return of the job id precedes
every network action (the handler body contains no `await`, so it never
blocks on the network); and a poll made while the job's stored status is
still `Pending` or `Processing` observes the single wire `Pending` and
leaves the store unchanged. -/
theorem return_precedes_network :
    (∀ (calls : List String) (outcome : Except String String) (tr : List Act)
        (i j : Nat) (c : String),
      coopB startAnalysisActs (runnerActs calls outcome) tr = true →
      tr[i]? = some Act.retAct → tr[j]? = some (Act.network c) → i < j) ∧
    (∀ (store : Store) (job_id : String),
      get_job_status job_id store = some .pending ∨
        get_job_status job_id store = some .processing →
      get_analysis_status job_id store = (.pending, store)) := by
  constructor
  · intro calls outcome tr i j c hc hi hj
    have hna : ∀ a ∈ startAnalysisActs, a ≠ Act.awaitAct := by decide
    have htr := coop_no_await _ _ _ hna hc
    subst htr
    have hlen : startAnalysisActs.length = 6 := rfl
    have hjge : 6 ≤ j := by
      by_contra hlt
      push_neg at hlt
      rw [List.getElem?_append_left (by omega)] at hj
      interval_cases j <;> simp [startAnalysisActs] at hj
    have hnr : Act.retAct ∉ runnerActs calls outcome := by
      rcases outcome with e | t <;> simp [runnerActs]
    have hilt : i < 6 := by
      by_contra hge
      push_neg at hge
      rw [List.getElem?_append_right (by omega)] at hi
      exact hnr (List.getElem?_mem hi)
    omega
  · intro store job_id h
    rcases h with h | h <;> simp [get_analysis_status, h]

/-- Witness for C5: a concrete full schedule of handler then task, with
the return at index 5 and the network call at index 7; and a concrete
processing job polled as `Pending`. -/
theorem return_precedes_network_witness :
    (coopB startAnalysisActs (runnerActs ["generation"] (.ok "T"))
        (startAnalysisActs ++ runnerActs ["generation"] (.ok "T")) = true ∧
      (startAnalysisActs ++ runnerActs ["generation"] (.ok "T"))[5]? =
        some Act.retAct ∧
      (startAnalysisActs ++ runnerActs ["generation"] (.ok "T"))[7]? =
        some (Act.network "generation") ∧
      (5 : Nat) < 7) ∧
    (get_job_status "job" [("job", ⟨JobStatus.processing, 0⟩)] =
        some JobStatus.processing ∧
      get_analysis_status "job" [("job", ⟨JobStatus.processing, 0⟩)] =
        (.pending, [("job", ⟨JobStatus.processing, 0⟩)])) := by
  refine ⟨⟨by decide, by decide, by decide, ?_⟩, by decide, ?_⟩
  · exact return_precedes_network.1 ["generation"] (.ok "T")
      (startAnalysisActs ++ runnerActs ["generation"] (.ok "T")) 5 7 "generation"
      (by decide) (by decide) (by decide)
  · exact return_precedes_network.2 [("job", ⟨JobStatus.processing, 0⟩)] "job"
      (Or.inr (by decide))

/-- `updatesOf` distributes over trace concatenation. -/
theorem updatesOf_append (l1 l2 : List JobOp) :
    updatesOf (l1 ++ l2) = updatesOf l1 ++ updatesOf l2 := by
  induction l1 with
  | nil => rfl
  | cons o t ih => cases o <;> simp [updatesOf, ih]

/-- A prefix of an update-free trace is update-free. -/
theorem updatesOf_take_of_nil (l : List JobOp) (k : Nat) (h : updatesOf l = []) :
    updatesOf (l.take k) = [] := by
  induction l generalizing k with
  | nil => simp [updatesOf]
  | cons o t ih =>
    cases k with
    | zero => rfl
    | succ k2 =>
      cases o with
      | createOp now =>
        simp only [updatesOf] at h
        simpa [List.take_succ_cons, updatesOf] using ih k2 h
      | updateOp s => simp [updatesOf] at h
      | readOp =>
        simp only [updatesOf] at h
        simpa [List.take_succ_cons, updatesOf] using ih k2 h
      | deleteOp =>
        simp only [updatesOf] at h
        simpa [List.take_succ_cons, updatesOf] using ih k2 h

/-- Once the record is gone, a create-free trace leaves it gone. -/
theorem stay_none (l : List JobOp) :
    noCreate l = true → List.foldl applyOp none l = none := by
  induction l with
  | nil => intro _; rfl
  | cons o t ih =>
    intro h
    simp only [noCreate, List.all_cons, Bool.and_eq_true] at h
    cases o with
    | createOp now => simp at h
    | updateOp s => simpa [applyOp] using ih h.2
    | readOp => simpa [applyOp] using ih h.2
    | deleteOp => simpa [applyOp] using ih h.2

/-- A trace with no update and no create operation either leaves the
stored status unchanged or merely deletes the record. -/
theorem stable_slice (l : List JobOp) :
    updatesOf l = [] → noCreate l = true →
    ∀ σ, List.foldl applyOp σ l = σ ∨ List.foldl applyOp σ l = none := by
  induction l with
  | nil => intro _ _ σ; exact Or.inl rfl
  | cons o t ih =>
    intro hnu hnc σ
    simp only [noCreate, List.all_cons, Bool.and_eq_true] at hnc
    cases o with
    | createOp now => simp at hnc
    | updateOp s => simp [updatesOf] at hnu
    | readOp =>
      have hnu2 : updatesOf t = [] := by simpa [updatesOf] using hnu
      simpa [applyOp] using ih hnu2 hnc.2 σ
    | deleteOp =>
      right
      simp only [List.foldl_cons, applyOp]
      exact stay_none t hnc.2

/-- From an absent record, a trace whose update operations are all
non-terminal can only reach an absent record or a non-terminal status. -/
theorem nonterminal_foldl (l : List JobOp) :
    (∀ u ∈ updatesOf l, u.isTerminal = false) →
    ∀ σ, (σ = none ∨ ∃ s, σ = some s ∧ s.isTerminal = false) →
    (List.foldl applyOp σ l = none ∨
      ∃ s, List.foldl applyOp σ l = some s ∧ s.isTerminal = false) := by
  induction l with
  | nil => intro _ σ hσ; simpa using hσ
  | cons o t ih =>
    intro hu σ hσ
    have hut : ∀ u ∈ updatesOf t, u.isTerminal = false := by
      intro u hmem
      apply hu
      cases o <;> simp [updatesOf, hmem]
    cases o with
    | createOp now =>
      simp only [List.foldl_cons, applyOp]
      exact ih hut (some .pending) (Or.inr ⟨.pending, rfl, rfl⟩)
    | updateOp s =>
      have hsnt : s.isTerminal = false := hu s (by simp [updatesOf])
      simp only [List.foldl_cons]
      rcases hσ with h | ⟨s0, hs0, _⟩
      · subst h
        simp only [applyOp]
        exact ih hut none (Or.inl rfl)
      · subst hs0
        simp only [applyOp]
        exact ih hut (some s) (Or.inr ⟨s, rfl, hsnt⟩)
    | readOp =>
      simp only [List.foldl_cons, applyOp]
      exact ih hut σ hσ
    | deleteOp =>
      simp only [List.foldl_cons, applyOp]
      exact ih hut none (Or.inl rfl)

/-- A job trace can only hold a terminal status after a terminal update
was applied. -/
theorem no_terminal_without_terminal_update (l : List JobOp)
    (h : ∀ u ∈ updatesOf l, u.isTerminal = false)
    (s : JobStatus) (hs : runOps l = some s) : s.isTerminal = false := by
  have hres := nonterminal_foldl l h none (Or.inl rfl)
  unfold runOps at hs
  rcases hres with hnone | ⟨s2, hs2, hnt⟩
  · rw [hs] at hnone
    cases hnone
  · rw [hs] at hs2
    cases hs2
    exact hnt

/-- C7: `Complete` and `Error` are terminal.  In any trace on one job id
consisting of its creation followed by an interleaving of the runner's
two updates (`Processing`, then a terminal status) with arbitrary reads
and deletes, once the stored status is terminal every later point shows
either the same status or a deleted record — no operation ever moves the
job to another status. -/
theorem terminal_status_is_final (n : Nat) (rest : List JobOp) (term : JobStatus)
    (i j : Nat) (s : JobStatus)
    (hnc : noCreate rest = true)
    (hupd : updatesOf rest = [JobStatus.processing, term])
    (hij : i ≤ j)
    (hsi : runOps ((JobOp.createOp n :: rest).take i) = some s)
    (hst : s.isTerminal = true) :
    runOps ((JobOp.createOp n :: rest).take j) = some s ∨
    runOps ((JobOp.createOp n :: rest).take j) = none := by
  set tr := JobOp.createOp n :: rest with htr
  have hi1 : 1 ≤ i := by
    rcases Nat.eq_zero_or_pos i with h0 | h1
    · subst h0
      simp [runOps] at hsi
    · exact h1
  have hjeq : tr.take j = tr.take i ++ (tr.drop i).take (j - i) := by
    conv_lhs => rw [show j = i + (j - i) from (Nat.add_sub_cancel' hij).symm]
    exact List.take_add tr i (j - i)
  have hsplit : updatesOf (tr.take i) ++ updatesOf (tr.drop i) =
      [JobStatus.processing, term] := by
    rw [← updatesOf_append, List.take_append_drop]
    simpa [htr, updatesOf] using hupd
  have hpre : updatesOf (tr.take i) = [JobStatus.processing, term] := by
    rcases hU : updatesOf (tr.take i) with _ | ⟨u1, _ | ⟨u2, us⟩⟩
    · exfalso
      have hnt := no_terminal_without_terminal_update (tr.take i)
        (by simp [hU]) s hsi
      rw [hnt] at hst
      cases hst
    · exfalso
      rw [hU] at hsplit
      have hu1 : u1 = JobStatus.processing := by
        simpa using congrArg (fun l => l.head?) hsplit
      have hnt := no_terminal_without_terminal_update (tr.take i)
        (by
          intro u hm
          rw [hU] at hm
          simp at hm
          subst hm
          rw [hu1]
          rfl) s hsi
      rw [hnt] at hst
      cases hst
    · rw [hU] at hsplit
      simp only [List.cons_append] at hsplit
      have h1 : u1 = JobStatus.processing := by
        have e := congrArg List.head? hsplit
        simpa using e
      have hrest : u2 :: (us ++ updatesOf (tr.drop i)) = [term] := by
        have e := congrArg List.tail hsplit
        simpa using e
      have h2 : u2 = term := by
        have e := congrArg List.head? hrest
        simpa using e
      have h3 : us ++ updatesOf (tr.drop i) = [] := by
        have e := congrArg List.tail hrest
        simpa using e
      subst h1
      subst h2
      rcases List.append_eq_nil.mp h3 with ⟨hus, _⟩
      rw [hus]
  have hdrop : updatesOf (tr.drop i) = [] := by
    rw [hpre] at hsplit
    simpa using hsplit
  have hslice_upd : updatesOf ((tr.drop i).take (j - i)) = [] :=
    updatesOf_take_of_nil _ _ hdrop
  have hdropeq : tr.drop i = rest.drop (i - 1) := by
    rcases Nat.exists_eq_add_of_le hi1 with ⟨k, hk⟩
    subst hk
    simp [htr, Nat.add_comm 1 k]
  have hslice_nc : noCreate ((tr.drop i).take (j - i)) = true := by
    rw [noCreate, List.all_eq_true]
    intro x hx
    have hx2 : x ∈ rest :=
      List.drop_subset _ _ ((List.take_subset _ _) (hdropeq ▸ hx))
    exact (List.all_eq_true.mp hnc) x hx2
  rw [hjeq]
  unfold runOps
  rw [List.foldl_append]
  have hfold : List.foldl applyOp none (tr.take i) = some s := hsi
  rw [hfold]
  exact stable_slice _ hslice_upd hslice_nc (some s)

/-- Witness for C7: in a concrete trace — create, set `Processing`, read,
set `Complete "T"`, read, delete — the status at step 4 is the terminal
`Complete "T"` and at step 6 the record is deleted, never re-statused. -/
theorem terminal_status_is_final_witness :
    noCreate [JobOp.updateOp .processing, JobOp.readOp,
        JobOp.updateOp (.complete "T"), JobOp.readOp, JobOp.deleteOp] = true ∧
    updatesOf [JobOp.updateOp .processing, JobOp.readOp,
        JobOp.updateOp (.complete "T"), JobOp.readOp, JobOp.deleteOp] =
      [JobStatus.processing, JobStatus.complete "T"] ∧
    runOps ((JobOp.createOp 0 :: [JobOp.updateOp .processing, JobOp.readOp,
        JobOp.updateOp (.complete "T"), JobOp.readOp, JobOp.deleteOp]).take 4) =
      some (JobStatus.complete "T") ∧
    (runOps ((JobOp.createOp 0 :: [JobOp.updateOp .processing, JobOp.readOp,
        JobOp.updateOp (.complete "T"), JobOp.readOp, JobOp.deleteOp]).take 6) =
        some (JobStatus.complete "T") ∨
      runOps ((JobOp.createOp 0 :: [JobOp.updateOp .processing, JobOp.readOp,
        JobOp.updateOp (.complete "T"), JobOp.readOp, JobOp.deleteOp]).take 6) =
        none) := by
  refine ⟨by decide, by decide, by decide, ?_⟩
  exact terminal_status_is_final 0
    [JobOp.updateOp .processing, JobOp.readOp,
      JobOp.updateOp (.complete "T"), JobOp.readOp, JobOp.deleteOp]
    (JobStatus.complete "T") 4 6 (JobStatus.complete "T")
    (by decide) (by decide) (by decide) (by decide) (by decide)

end BigFive
